import Mathlib

/-!
# Verification of the vulcan-cors middleware (Skookum/vulcan-cors)

Shallow embedding of the two handler variants in `cors.go`:

* Variant 1: `CorsHandler` with the free functions `getHostAndMethods`,
  `checkMethod`, `validateOrigins`, `requestDenied` and the constructor `New`.
* Variant 2: `Handler` with `prepResponse`, `handlePreflight`, `handleRequest`,
  `handleCommon`, `buildResponse` and its own `requestDenied`, driven by a
  `Middleware` policy store whose query methods (`isOriginAllowed`,
  `isMethodAllowed`, `areHeadersAllowed`) are not part of the sources at hand
  and are modelled from the specification.

Go details that matter and are modelled explicitly:

* A Go `map[string][]string` value can be a nil slice, distinct from the empty
  slice, and indexing a missing key yields nil.  We model a Go slice value as
  `Option (List String)` (`none` = nil) and the map as an association list.
* `strings.Split(s, ",")` and `strings.Join(l, ",")` are embedded as the
  structural functions `splitComma` and `joinComma`; in particular Go's
  `Split` on the empty string yields `[""]`, never the empty list.
* `http.ResponseWriter.WriteHeader` only takes effect the first time; response
  headers are a multimap with `Set` (replace) and `Add` (append) operations.
* Invoking the next handler in the chain is recorded by a `nextCalled` flag.
-/

/-- A Go slice value of type `[]string`: `none` is the nil slice, `some l` a
non-nil slice (possibly empty). -/
abbrev GoSlice := Option (List String)

/-- A Go `map[string][]string`, as an association list of key/value pairs.
A real Go map has no duplicate keys; theorems that need this assume
`(goMapKeys m).Nodup`. -/
abbrev GoMap := List (String × GoSlice)

/-- The keys of a Go map. -/
def goMapKeys (m : GoMap) : List String := m.map Prod.fst

/-- Go map indexing `m[k]`: the stored value if the key is present, otherwise
the zero value of the value type, which for `[]string` is the nil slice
(`none`). -/
def goMapGet (m : GoMap) (k : String) : GoSlice :=
  match m.find? (fun p => p.1 == k) with
  | some p => p.2
  | none => none

/-- Response headers: a list of (name, value) pairs in insertion order. -/
abbrev Headers := List (String × String)

/-- Go `http.Header.Set`: replace all values stored under the name. -/
def headerSet (hs : Headers) (k v : String) : Headers :=
  hs.filter (fun p => !(p.1 == k)) ++ [(k, v)]

/-- Go `http.Header.Add`: append a value under the name. -/
def headerAdd (hs : Headers) (k v : String) : Headers :=
  hs ++ [(k, v)]

/-- Go `http.Header.Get`: the first value stored under the name, if any
(`Get` returns `""` for a missing header; `Option` keeps absence visible). -/
def headerGet (hs : Headers) (k : String) : Option String :=
  (hs.find? (fun p => p.1 == k)).map Prod.snd

/-- The request data the middleware reads: the HTTP method and the values of
the four headers it consults.  Go `r.Header.Get` returns `""` when a header is
absent, so an absent header is the empty string here, as in the source. -/
structure Request where
  method : String
  /-- value of the `Origin` request header -/
  origin : String
  /-- value of the `Access-Control-Request-Method` request header -/
  acRequestMethod : String
  /-- value of the `Access-Control-Request-Headers` request header -/
  acRequestHeaders : String
deriving Repr, DecidableEq

/-- The observable effect of one request evaluation on the response writer and
the middleware chain. -/
structure Response where
  headers : Headers
  /-- the status code established by `WriteHeader`, if any was written -/
  status : Option Nat
  /-- whether `next.ServeHTTP` was invoked for this request -/
  nextCalled : Bool
deriving Repr, DecidableEq

/-- The response writer as handed to the middleware: nothing written yet. -/
def Response.initial : Response := { headers := [], status := none, nextCalled := false }

/-- Go `WriteHeader`: only the first call takes effect; later calls are
superfluous and ignored. -/
def writeHeader (w : Response) (code : Nat) : Response :=
  match w.status with
  | some _ => w
  | none => { w with status := some code }

/-- Helper for `splitComma`: walk the characters, cutting at each comma; the
accumulator holds the current field reversed. -/
def splitCommaAux : List Char → List Char → List String
  | [], acc => [String.mk acc.reverse]
  | c :: cs, acc =>
    if c = ',' then String.mk acc.reverse :: splitCommaAux cs []
    else splitCommaAux cs (c :: acc)

/-- Go `strings.Split(s, ",")`: the fields of `s` around each comma.  On the
empty string this is `[""]`, a one-element list, never `[]`. -/
def splitComma (s : String) : List String :=
  splitCommaAux s.data []

/-- Go `strings.Join(l, ",")`: the elements of `l` joined by commas. -/
def joinComma : List String → String
  | [] => ""
  | [s] => s
  | s :: rest => s ++ "," ++ joinComma rest

/-- Modelled from the spec: the `Origin` header-name constant used by
`CorsHandler.ServeHTTP`; its defining file is not among the sources. -/
def Origin : String := "Origin"

/-- Modelled from the spec: the `Access-Control-Allow-Origin` header-name
constant; its defining file is not among the sources. -/
def AccessControlAllowOrigin : String := "Access-Control-Allow-Origin"

/-- Modelled from the spec: the `Access-Control-Allow-Methods` header-name
constant; its defining file is not among the sources. -/
def AccessControlAllowMethods : String := "Access-Control-Allow-Methods"

/-- Modelled from the spec: the `Access-Control-Request-Method` header-name
constant; its defining file is not among the sources. -/
def AccessControlRequestMethod : String := "Access-Control-Request-Method"

/-- Function `validateOrigins` from `cors.go`: error when the mapping is empty or some
origin key is the empty string.  Go returns `(bool, error)`; we return the
bool and the error message, `none` meaning a nil error. -/
def validateOrigins (origins : GoMap) : Bool × Option String :=
  if origins.length = 0 then
    (false, some "must supply at least one origin or '*'")
  else if (goMapKeys origins).any (fun origin => origin == "") then
    (false, some "must supply at least one origin or '*'")
  else
    (true, none)

/-- Structure `CorsMiddleware` from `cors.go`: the configuration held by the middleware. -/
structure CorsMiddleware where
  AllowedOrigins : GoMap
deriving Repr, DecidableEq

/-- Function `New` from `cors.go`: validate the supplied origins and build the
middleware; `(nil, err)` becomes `Except.error`. -/
def New (allowedOrigins : GoMap) : Except String CorsMiddleware :=
  match (validateOrigins allowedOrigins).2 with
  | some e => Except.error e
  | none => Except.ok { AllowedOrigins := allowedOrigins }

/-- Function `getHostAndMethods` from `cors.go`: Go tests `allowedOrigins[origin] != nil`,
so a key bound to a nil slice behaves like a missing key. -/
def getHostAndMethods (allowedOrigins : GoMap) (origin : String) : Bool × List String :=
  match goMapGet allowedOrigins origin with
  | some ms => (true, ms)
  | none =>
    match goMapGet allowedOrigins "*" with
    | some ms => (true, ms)
    | none => (false, [])

/-- Function `checkMethod` from `cors.go`: scan the method list for the method itself or
the wildcard token. -/
def checkMethod (method : String) (methods : List String) : Bool :=
  methods.any (fun a => a == method || a == "*")

/-- Free function `requestDenied` from `cors.go` (variant 1): log the message
and write status 403. -/
def requestDenied (w : Response) (message : String) : Response :=
  let _ := message
  writeHeader w 403

/-- Method `CorsHandler.ServeHTTP` from `cors.go` (variant 1), as a function from the
configuration and request to the final response-writer state. -/
def CorsHandler.serveHTTP (cfg : GoMap) (r : Request) : Response :=
  let w := Response.initial
  let origin := r.origin
  let hm := getHostAndMethods cfg origin
  let hostIncluded := hm.1
  let methods := hm.2
  if !hostIncluded then
    requestDenied { w with headers := headerSet w.headers AccessControlAllowOrigin "null" }
      "Request Blocked by CORS: Bad Host"
  else
    let w := { w with headers := headerSet w.headers AccessControlAllowOrigin origin }
    if r.method == "OPTIONS" then
      let w := { w with headers := headerSet w.headers AccessControlAllowOrigin origin }
      let hs := headerSet w.headers AccessControlAllowMethods (joinComma methods)
      let w := { w with headers := hs }
      let methodOK :=
        if r.acRequestMethod != "" then checkMethod r.acRequestMethod methods else true
      if !methodOK then
        requestDenied w "Request Blocked by CORS: Bad Method"
      else
        writeHeader w 200
    else
      if !(checkMethod r.method methods) then
        requestDenied w "Request Blocked by CORS: Bad Method"
      else
        { w with nextCalled := true }

/-- Modelled from the spec: `originHeader`, the `Origin` header-name constant
used by variant 2; its defining file is not among the sources. -/
def originHeader : String := "Origin"

/-- Modelled from the spec: `optionsMethod`, the preflight method token
`OPTIONS`; its defining file is not among the sources. -/
def optionsMethod : String := "OPTIONS"

/-- Modelled from the spec: `requestMethodHeader`, the
`Access-Control-Request-Method` header name; its defining file is not among
the sources. -/
def requestMethodHeader : String := "Access-Control-Request-Method"

/-- Modelled from the spec: `requestHeadersHeader`, the
`Access-Control-Request-Headers` header name; its defining file is not among
the sources. -/
def requestHeadersHeader : String := "Access-Control-Request-Headers"

/-- Modelled from the spec: `varyHeader`, the `Vary` header name; its defining
file is not among the sources. -/
def varyHeader : String := "Vary"

/-- Modelled from the spec: `allowOriginHeader`, the
`Access-Control-Allow-Origin` header name; its defining file is not among the
sources. -/
def allowOriginHeader : String := "Access-Control-Allow-Origin"

/-- Modelled from the spec: `allowMethodsHeader`, the
`Access-Control-Allow-Methods` header name; its defining file is not among the
sources. -/
def allowMethodsHeader : String := "Access-Control-Allow-Methods"

/-- Modelled from the spec: `allowHeadersHeader`, the
`Access-Control-Allow-Headers` header name; its defining file is not among the
sources. -/
def allowHeadersHeader : String := "Access-Control-Allow-Headers"

/-- Modelled from the spec: the `Middleware` policy store of variant 2, whose
definition is not among the sources.  Per the spec it is an immutable mapping
from origin string to a set of allowed method tokens and, in the extended
variant, a set of allowed header names. -/
structure Middleware where
  allowedOrigins : List (String × (List String × List String))
deriving Repr, DecidableEq

/-- Exact lookup of an origin entry in the policy mapping. -/
def Middleware.lookup (c : Middleware) (origin : String) :
    Option (List String × List String) :=
  (c.allowedOrigins.find? (fun p => p.1 == origin)).map Prod.snd

/-- Modelled from the spec: `isOriginAllowed(origin)` is "true iff `origin` is
an exact key in the mapping, or the wildcard key is present"; its defining
file is not among the sources. -/
def Middleware.isOriginAllowed (c : Middleware) (origin : String) : Bool :=
  (c.lookup origin).isSome || (c.lookup "*").isSome

/-- Modelled from the spec: `allowedMethods(origin)` "returns the method set
for the exact origin if present, else the wildcard origin's method set, else
empty"; its defining file is not among the sources. -/
def Middleware.allowedMethods (c : Middleware) (origin : String) : List String :=
  match c.lookup origin with
  | some e => e.1
  | none =>
    match c.lookup "*" with
    | some e => e.1
    | none => []

/-- Modelled from the spec: the allowed-header set for an origin, with the
same exact-then-wildcard fallback lookup; its defining file is not among the
sources. -/
def Middleware.allowedHeaders (c : Middleware) (origin : String) : List String :=
  match c.lookup origin with
  | some e => e.2
  | none =>
    match c.lookup "*" with
    | some e => e.2
    | none => []

/-- Modelled from the spec: `isMethodAllowed(method, origin)` is "true iff the
method set for `origin` (via the fallback rule) contains the method literally
or contains the wildcard token"; its defining file is not among the sources. -/
def Middleware.isMethodAllowed (c : Middleware) (method origin : String) : Bool :=
  (c.allowedMethods origin).contains method || (c.allowedMethods origin).contains "*"

/-- Modelled from the spec: `areHeadersAllowed(headers, origin)` is "true iff
every requested header name is present in the origin's allowed-header set or
that set contains the wildcard token; an empty requested-header list is
trivially allowed"; its defining file is not among the sources. -/
def Middleware.areHeadersAllowed (c : Middleware) (headers : List String)
    (origin : String) : Bool :=
  (c.allowedHeaders origin).contains "*"
    || headers.all (fun h => (c.allowedHeaders origin).contains h)

/-- Method `Handler.prepResponse` from `cors.go` (variant 2): add `Vary: Origin`. -/
def Handler.prepResponse (w : Response) : Response :=
  { w with headers := headerAdd w.headers varyHeader originHeader }

/-- Method `Handler.requestDenied` from `cors.go` (variant 2): log and write 403; it
does not touch the `Access-Control-Allow-Origin` header. -/
def Handler.requestDenied (w : Response) (m : String) : Response :=
  let _ := m
  writeHeader w 403

/-- Method `Handler.buildResponse` from `cors.go` (variant 2): write the three
access-control response headers. -/
def Handler.buildResponse (w : Response) (origin method : String)
    (headers : List String) : Response :=
  let h1 := headerSet w.headers allowOriginHeader origin
  let h2 := headerSet h1 allowMethodsHeader method
  let h3 := headerSet h2 allowHeadersHeader (joinComma headers)
  { w with headers := h3 }

/-- Method `Handler.handleCommon` from `cors.go` (variant 2): origin check, method
check, then header check on the comma-split
`Access-Control-Request-Headers` value; the first failure denies. -/
def Handler.handleCommon (cfg : Middleware) (w : Response) (r : Request)
    (method : String) : Response :=
  let origin := r.origin
  if !(cfg.isOriginAllowed origin) then
    Handler.requestDenied w "origin not allowed"
  else if !(cfg.isMethodAllowed method origin) then
    Handler.requestDenied w "method not allowed"
  else
    let headers := splitComma r.acRequestHeaders
    if !(cfg.areHeadersAllowed headers origin) then
      Handler.requestDenied w "headers not allowed"
    else
      Handler.buildResponse w origin method headers

/-- Method `Handler.handlePreflight` from `cors.go` (variant 2): probe the
`Access-Control-Request-Method` value, falling back to the request's own
method when it is empty. -/
def Handler.handlePreflight (cfg : Middleware) (w : Response) (r : Request) : Response :=
  let method := if r.acRequestMethod == "" then r.method else r.acRequestMethod
  Handler.handleCommon cfg w r method

/-- Method `Handler.handleRequest` from `cors.go` (variant 2): probe the request's
own method. -/
def Handler.handleRequest (cfg : Middleware) (w : Response) (r : Request) : Response :=
  Handler.handleCommon cfg w r r.method

/-- Method `Handler.ServeHTTP` from `cors.go` (variant 2).  Note that
`next.ServeHTTP` is invoked unconditionally after the preflight/actual
branch returns, whatever the outcome was. -/
def Handler.serveHTTP (cfg : Middleware) (r : Request) : Response :=
  let w := Handler.prepResponse Response.initial
  let w :=
    if r.method == optionsMethod then Handler.handlePreflight cfg w r
    else Handler.handleRequest cfg w r
  { w with nextCalled := true }

/-! ## Helper lemmas -/

/-- Writing a status never touches the headers. -/
theorem writeHeader_headers (w : Response) (c : Nat) :
    (writeHeader w c).headers = w.headers := by
  cases hw : w.status <;> simp [writeHeader, hw]

/-- Writing a status never invokes the next handler. -/
theorem writeHeader_nextCalled (w : Response) (c : Nat) :
    (writeHeader w c).nextCalled = w.nextCalled := by
  cases hw : w.status <;> simp [writeHeader, hw]

/-- The first written status wins. -/
theorem writeHeader_status_of_none (w : Response) (c : Nat) (hw : w.status = none) :
    (writeHeader w c).status = some c := by
  simp [writeHeader, hw]

/-- Go map indexing, unfolded one entry at a time. -/
theorem goMapGet_cons (k0 : String) (v0 : GoSlice) (t : GoMap) (k : String) :
    goMapGet ((k0, v0) :: t) k = if (k0 == k) then v0 else goMapGet t k := by
  cases h : (k0 == k) <;> simp [goMapGet, List.find?, h]

/-- On a map with no duplicate keys, indexing returns a non-nil slice exactly
when the corresponding binding is present. -/
theorem goMapGet_some_iff (m : GoMap) (k : String) (v : List String)
    (h : (goMapKeys m).Nodup) : goMapGet m k = some v ↔ (k, some v) ∈ m := by
  induction m with
  | nil => simp [goMapGet]
  | cons p t ih =>
    obtain ⟨k0, v0⟩ := p
    simp only [goMapKeys, List.map_cons, List.nodup_cons] at h
    rw [goMapGet_cons]
    by_cases hk : k0 = k
    · subst hk
      rw [if_pos (by simp)]
      constructor
      · intro hv
        rw [← hv]
        exact List.mem_cons_self _ _
      · intro hmem
        rcases List.mem_cons.mp hmem with heq | hmem2
        · injection heq with h1 h2
          exact h2.symm
        · exact absurd (List.mem_map_of_mem Prod.fst hmem2) h.1
    · rw [if_neg (by simpa using hk)]
      rw [ih h.2]
      constructor
      · intro hmem
        exact List.mem_cons_of_mem _ hmem
      · intro hmem
        rcases List.mem_cons.mp hmem with heq | hmem2
        · injection heq with h1 h2
          exact absurd h1.symm hk
        · exact hmem2

/-- Method scanning, as a membership statement. -/
theorem checkMethod_iff (m : String) (ms : List String) :
    checkMethod m ms = true ↔ m ∈ ms ∨ "*" ∈ ms := by
  simp only [checkMethod, List.any_eq_true, Bool.or_eq_true, beq_iff_eq]
  constructor
  · rintro ⟨a, ha, rfl | rfl⟩
    · exact Or.inl ha
    · exact Or.inr ha
  · rintro (hm | hw)
    · exact ⟨m, hm, Or.inl rfl⟩
    · exact ⟨"*", hw, Or.inr rfl⟩

/-! ## Claims -/

/-- C4 counterexample: a policy in which the origin `http://a.com` is bound to
a Go nil slice.  The origin is a key of the mapping and no wildcard entry
exists, yet `getHostAndMethods` reports the host as not included, because the
Go code tests `allowedOrigins[origin] != nil` and a nil-valued binding is
indistinguishable from a missing key. -/
theorem c4_origin_iff_key_counterexample :
    "http://a.com" ∈ goMapKeys [("http://a.com", (none : GoSlice))] ∧
    (getHostAndMethods [("http://a.com", (none : GoSlice))] "http://a.com").1 = false := by
  constructor
  · simp [goMapKeys]
  · rfl

/-- C4 (amended): for a policy with no duplicate origin keys, the origin check
accepts an origin iff the mapping binds that exact origin to a non-nil method
slice, or binds the wildcard key to a non-nil method slice.  Matching is exact
string equality: the accepted origin is literally a bound key. -/
theorem c4_origin_check_iff (P : GoMap) (o : String) (h : (goMapKeys P).Nodup) :
    (getHostAndMethods P o).1 = true ↔
      ((∃ ms, (o, some ms) ∈ P) ∨ (∃ ms, ("*", some ms) ∈ P)) := by
  unfold getHostAndMethods
  rcases hg : goMapGet P o with _ | ms
  · rcases hw : goMapGet P "*" with _ | ms2
    · simp only []
      constructor
      · intro hfalse
        exact absurd hfalse (by simp)
      · rintro (⟨ms, hmem⟩ | ⟨ms, hmem⟩)
        · rw [← goMapGet_some_iff P o ms h] at hmem
          rw [hmem] at hg
          exact absurd hg (by simp)
        · rw [← goMapGet_some_iff P "*" ms h] at hmem
          rw [hmem] at hw
          exact absurd hw (by simp)
    · simp only []
      constructor
      · intro _
        exact Or.inr ⟨ms2, (goMapGet_some_iff P "*" ms2 h).mp hw⟩
      · intro _
        trivial
  · simp only []
    constructor
    · intro _
      exact Or.inl ⟨ms, (goMapGet_some_iff P o ms h).mp hg⟩
    · intro _
      trivial

/-- C4 witness: the amended equivalence evaluated on a concrete two-entry
policy and an origin present as an exact key. -/
theorem c4_origin_check_iff_witness :
    (getHostAndMethods [("http://a.com", some ["GET", "POST"]), ("*", some ["GET"])]
        "http://a.com").1 = true :=
  (c4_origin_check_iff [("http://a.com", some ["GET", "POST"]), ("*", some ["GET"])]
      "http://a.com" (by decide)).mpr
    (Or.inl ⟨["GET", "POST"], by decide⟩)

/-- C5: over the method set obtained for an origin by the exact-then-wildcard
lookup, a set containing the wildcard token accepts every probed method, and
in general a method is accepted iff the set contains it literally or contains
the wildcard token. -/
theorem c5_method_check_iff (P : GoMap) (o m : String) :
    ("*" ∈ (getHostAndMethods P o).2 →
      checkMethod m (getHostAndMethods P o).2 = true) ∧
    (checkMethod m (getHostAndMethods P o).2 = true ↔
      m ∈ (getHostAndMethods P o).2 ∨ "*" ∈ (getHostAndMethods P o).2) := by
  constructor
  · intro hw
    exact (checkMethod_iff m _).mpr (Or.inr hw)
  · exact checkMethod_iff m _

/-- C5 witness: evaluated on a wildcard-method policy and the method
`DELETE`, which the set does not contain literally. -/
theorem c5_method_check_iff_witness :
    checkMethod "DELETE" (getHostAndMethods [("http://a.com", some ["*"])] "http://a.com").2
      = true :=
  (c5_method_check_iff [("http://a.com", some ["*"])] "http://a.com" "DELETE").1 (by decide)

/-- C8: construction fails exactly when the supplied mapping is empty or has
an empty-string origin key, and on success the middleware holds exactly the
supplied mapping.  No other validation is performed: any other mapping,
whatever its method tokens, is accepted. -/
theorem c8_new_iff (m : GoMap) :
    ((∃ c, New m = Except.ok c) ↔ ¬(m = [] ∨ "" ∈ goMapKeys m)) ∧
    (∀ c, New m = Except.ok c → c.AllowedOrigins = m) := by
  unfold New validateOrigins
  by_cases h0 : m.length = 0
  · rw [if_pos h0]
    simp only []
    constructor
    · constructor
      · rintro ⟨c, hc⟩
        exact absurd hc (by simp)
      · intro hno
        exact absurd (Or.inl (List.length_eq_zero.mp h0)) hno
    · intro c hc
      exact absurd hc (by simp)
  · rw [if_neg h0]
    by_cases h1 : (goMapKeys m).any (fun origin => origin == "") = true
    · rw [if_pos h1]
      simp only []
      constructor
      · constructor
        · rintro ⟨c, hc⟩
          exact absurd hc (by simp)
        · intro hno
          rcases List.any_eq_true.mp h1 with ⟨k, hk, hkeq⟩
          rw [beq_iff_eq.mp hkeq] at hk
          exact absurd (Or.inr hk) hno
      · intro c hc
        exact absurd hc (by simp)
    · rw [if_neg h1]
      simp only []
      constructor
      · constructor
        · intro _
          rintro (hnil | hkey)
          · exact h0 (by rw [hnil]; rfl)
          · exact h1 (List.any_eq_true.mpr ⟨"", hkey, by rfl⟩)
        · intro _
          exact ⟨{ AllowedOrigins := m }, rfl⟩
      · intro c hc
        injection hc with hc2
        rw [← hc2]

/-- C8 witness: the construction equivalence evaluated on a concrete
single-origin mapping, which is accepted and held exactly. -/
theorem c8_new_iff_witness :
    (∃ c, New [("http://a.com", some ["GET"])] = Except.ok c) ∧
    ({ AllowedOrigins := [("http://a.com", some ["GET"])] } : CorsMiddleware).AllowedOrigins
      = [("http://a.com", some ["GET"])] := by
  have h := c8_new_iff [("http://a.com", some ["GET"])]
  exact ⟨h.1.mpr (by decide),
    h.2 { AllowedOrigins := [("http://a.com", some ["GET"])] } (by rfl)⟩

/-- C1 counterexample: a preflight that passes every check of variant 2 still
invokes the next-stage continuation, because `Handler.ServeHTTP` calls
`next.ServeHTTP` unconditionally after the preflight branch returns; no 200 is
written either (the status is still unset when `next` runs). -/
theorem c1_preflight_counterexample :
    (Request.mk "OPTIONS" "http://a.com" "GET" "").method = "OPTIONS" ∧
    (Handler.serveHTTP { allowedOrigins := [("http://a.com", (["GET"], ["*"]))] }
        (Request.mk "OPTIONS" "http://a.com" "GET" "")).nextCalled = true ∧
    (Handler.serveHTTP { allowedOrigins := [("http://a.com", (["GET"], ["*"]))] }
        (Request.mk "OPTIONS" "http://a.com" "GET" "")).status = none := by
  refine ⟨rfl, rfl, by decide⟩

/-- C1 (amended): in the `CorsHandler` variant an OPTIONS request never
invokes the next-stage continuation, and a preflight that passes the origin
check and the (optional) method probe terminates with HTTP 200; the `Handler`
variant instead invokes the continuation for every request, preflights
included. -/
theorem c1_preflight_no_forward :
    (∀ (cfg : GoMap) (r : Request), r.method = "OPTIONS" →
      (CorsHandler.serveHTTP cfg r).nextCalled = false ∧
      ((getHostAndMethods cfg r.origin).1 = true →
        (r.acRequestMethod = "" ∨
          checkMethod r.acRequestMethod (getHostAndMethods cfg r.origin).2 = true) →
        (CorsHandler.serveHTTP cfg r).status = some 200)) ∧
    (∀ (cfg : Middleware) (r : Request), r.method = "OPTIONS" →
      (Handler.serveHTTP cfg r).nextCalled = true) := by
  constructor
  · intro cfg r hopt
    cases hh : (getHostAndMethods cfg r.origin).1 with
    | false =>
      constructor
      · simp [CorsHandler.serveHTTP, hh, requestDenied, writeHeader, Response.initial]
      · intro htrue
        exact absurd htrue (by simp)
    | true =>
      by_cases hac : r.acRequestMethod = ""
      · constructor
        · simp [CorsHandler.serveHTTP, hopt, hh, hac, writeHeader, Response.initial]
        · intro _ _
          simp [CorsHandler.serveHTTP, hopt, hh, hac, writeHeader, Response.initial]
      · cases hcm : checkMethod r.acRequestMethod (getHostAndMethods cfg r.origin).2 with
        | false =>
          constructor
          · simp [CorsHandler.serveHTTP, hopt, hh, hac, hcm, requestDenied, writeHeader,
              Response.initial]
          · rintro _ (hc | hc)
            · exact absurd hc hac
            · exact absurd hc (by simp)
        | true =>
          constructor
          · simp [CorsHandler.serveHTTP, hopt, hh, hac, hcm, writeHeader, Response.initial]
          · intro _ _
            simp [CorsHandler.serveHTTP, hopt, hh, hac, hcm, writeHeader, Response.initial]
  · intro cfg r _
    rfl

/-- C1 witness: the amended statement evaluated on a concrete policy and a
concrete successful preflight. -/
theorem c1_preflight_no_forward_witness :
    (CorsHandler.serveHTTP [("http://a.com", some ["GET"])]
        (Request.mk "OPTIONS" "http://a.com" "GET" "")).nextCalled = false ∧
    (CorsHandler.serveHTTP [("http://a.com", some ["GET"])]
        (Request.mk "OPTIONS" "http://a.com" "GET" "")).status = some 200 ∧
    (Handler.serveHTTP { allowedOrigins := [("http://a.com", (["GET"], ["*"]))] }
        (Request.mk "OPTIONS" "http://a.com" "GET" "")).nextCalled = true := by
  have h1 := c1_preflight_no_forward.1 [("http://a.com", some ["GET"])]
    (Request.mk "OPTIONS" "http://a.com" "GET" "") rfl
  have h2 := c1_preflight_no_forward.2 { allowedOrigins := [("http://a.com", (["GET"], ["*"]))] }
    (Request.mk "OPTIONS" "http://a.com" "GET" "") rfl
  exact ⟨h1.1, h1.2 (by decide) (Or.inr (by decide)), h2⟩

/-- Any failing check inside variant 2's `handleCommon` writes 403 into a
response that has no status yet. -/
theorem handleCommon_denied (cfg : Middleware) (w : Response) (r : Request)
    (method : String) (hw : w.status = none)
    (h : cfg.isOriginAllowed r.origin = false ∨
      cfg.isMethodAllowed method r.origin = false ∨
      cfg.areHeadersAllowed (splitComma r.acRequestHeaders) r.origin = false) :
    (Handler.handleCommon cfg w r method).status = some 403 := by
  cases ho : cfg.isOriginAllowed r.origin with
  | false =>
    simp [Handler.handleCommon, ho, Handler.requestDenied, writeHeader, hw]
  | true =>
    cases hm : cfg.isMethodAllowed method r.origin with
    | false =>
      simp [Handler.handleCommon, ho, hm, Handler.requestDenied, writeHeader, hw]
    | true =>
      cases hhd : cfg.areHeadersAllowed (splitComma r.acRequestHeaders) r.origin with
      | false =>
        simp [Handler.handleCommon, ho, hm, hhd, Handler.requestDenied, writeHeader, hw]
      | true =>
        rcases h with h1 | h1 | h1
        · rw [ho] at h1
          exact absurd h1 (by simp)
        · rw [hm] at h1
          exact absurd h1 (by simp)
        · rw [hhd] at h1
          exact absurd h1 (by simp)

/-- C2 counterexample: a request denied by variant 2 (bad origin, status 403)
still has the next-stage continuation invoked, because `Handler.ServeHTTP`
calls `next.ServeHTTP` unconditionally. -/
theorem c2_denied_counterexample :
    (Handler.serveHTTP { allowedOrigins := [("http://a.com", (["GET"], ["*"]))] }
        (Request.mk "GET" "http://evil.com" "" "")).status = some 403 ∧
    (Handler.serveHTTP { allowedOrigins := [("http://a.com", (["GET"], ["*"]))] }
        (Request.mk "GET" "http://evil.com" "" "")).nextCalled = true := by
  refine ⟨by decide, rfl⟩

/-- C2 (amended): in the `CorsHandler` variant every failing check (origin,
or the method check that is actually performed) yields status 403 and the
next-stage continuation is never invoked; in the `Handler` variant a failing
check (origin, probed method, or headers) also yields 403, but the
continuation is invoked nevertheless. -/
theorem c2_denied_403_no_forward :
    (∀ (cfg : GoMap) (r : Request),
      ((getHostAndMethods cfg r.origin).1 = false ∨
        (r.method ≠ "OPTIONS" ∧
          checkMethod r.method (getHostAndMethods cfg r.origin).2 = false) ∨
        (r.method = "OPTIONS" ∧ r.acRequestMethod ≠ "" ∧
          checkMethod r.acRequestMethod (getHostAndMethods cfg r.origin).2 = false)) →
      (CorsHandler.serveHTTP cfg r).status = some 403 ∧
      (CorsHandler.serveHTTP cfg r).nextCalled = false) ∧
    (∀ (cfg : Middleware) (r : Request),
      (cfg.isOriginAllowed r.origin = false ∨
        cfg.isMethodAllowed
          (if (r.method == optionsMethod)
            then (if (r.acRequestMethod == "") then r.method else r.acRequestMethod)
            else r.method) r.origin = false ∨
        cfg.areHeadersAllowed (splitComma r.acRequestHeaders) r.origin = false) →
      (Handler.serveHTTP cfg r).status = some 403 ∧
      (Handler.serveHTTP cfg r).nextCalled = true) := by
  constructor
  · intro cfg r hfail
    cases hh : (getHostAndMethods cfg r.origin).1 with
    | false =>
      constructor <;>
        simp [CorsHandler.serveHTTP, hh, requestDenied, writeHeader, Response.initial]
    | true =>
      rcases hfail with h1 | ⟨hnopt, hcm⟩ | ⟨hopt, hac, hcm⟩
      · rw [hh] at h1
        exact absurd h1 (by simp)
      · have hne : (r.method == "OPTIONS") = false := by
          cases hb : r.method == "OPTIONS"
          · rfl
          · exact absurd (by simpa using hb) hnopt
        constructor <;>
          simp [CorsHandler.serveHTTP, hne, hh, hcm, requestDenied, writeHeader,
            Response.initial]
      · constructor <;>
          simp [CorsHandler.serveHTTP, hopt, hh, hac, hcm, requestDenied, writeHeader,
            Response.initial]
  · intro cfg r hfail
    refine ⟨?_, rfl⟩
    cases hb : r.method == optionsMethod with
    | true =>
      rw [if_pos hb] at hfail
      have hgoal : (Handler.serveHTTP cfg r).status
          = (Handler.handlePreflight cfg (Handler.prepResponse Response.initial) r).status := by
        simp [Handler.serveHTTP, hb]
      rw [hgoal]
      unfold Handler.handlePreflight
      cases hacb : r.acRequestMethod == "" with
      | true =>
        rw [if_pos hacb] at hfail
        exact handleCommon_denied cfg _ r r.method rfl hfail
      | false =>
        have hneg : ¬((r.acRequestMethod == "") = true) := by simp [hacb]
        rw [if_neg hneg] at hfail
        exact handleCommon_denied cfg _ r r.acRequestMethod rfl hfail
    | false =>
      have hneg : ¬((r.method == optionsMethod) = true) := by simp [hb]
      rw [if_neg hneg] at hfail
      have hgoal : (Handler.serveHTTP cfg r).status
          = (Handler.handleRequest cfg (Handler.prepResponse Response.initial) r).status := by
        simp [Handler.serveHTTP, hb]
      rw [hgoal]
      unfold Handler.handleRequest
      exact handleCommon_denied cfg _ r r.method rfl hfail

/-- C2 witness: evaluated on a concrete denied actual request in each
variant. -/
theorem c2_denied_403_no_forward_witness :
    ((CorsHandler.serveHTTP [("http://a.com", some ["GET"])]
        (Request.mk "GET" "http://evil.com" "" "")).status = some 403 ∧
      (CorsHandler.serveHTTP [("http://a.com", some ["GET"])]
        (Request.mk "GET" "http://evil.com" "" "")).nextCalled = false) ∧
    ((Handler.serveHTTP { allowedOrigins := [("http://a.com", (["GET"], ["*"]))] }
        (Request.mk "POST" "http://a.com" "" "")).status = some 403 ∧
      (Handler.serveHTTP { allowedOrigins := [("http://a.com", (["GET"], ["*"]))] }
        (Request.mk "POST" "http://a.com" "" "")).nextCalled = true) := by
  refine ⟨c2_denied_403_no_forward.1 [("http://a.com", some ["GET"])]
      (Request.mk "GET" "http://evil.com" "" "") (Or.inl (by decide)),
    c2_denied_403_no_forward.2 { allowedOrigins := [("http://a.com", (["GET"], ["*"]))] }
      (Request.mk "POST" "http://a.com" "" "") (Or.inr (Or.inl (by decide)))⟩

/-- C3 counterexample: variant 2 denies an unknown origin with 403 but never
sets `Access-Control-Allow-Origin` at all — its `requestDenied` only writes the
status, so the header is absent rather than the literal `null`. -/
theorem c3_null_counterexample :
    (Handler.serveHTTP { allowedOrigins := [("http://a.com", (["GET"], ["*"]))] }
        (Request.mk "GET" "http://evil.com" "" "")).status = some 403 ∧
    headerGet (Handler.serveHTTP { allowedOrigins := [("http://a.com", (["GET"], ["*"]))] }
        (Request.mk "GET" "http://evil.com" "" "")).headers allowOriginHeader = none := by
  refine ⟨by decide, by decide⟩

/-- C3 (amended): in the `CorsHandler` variant an origin denial sets
`Access-Control-Allow-Origin` to the literal string `null` and writes 403; in
the `Handler` variant an origin denial writes 403 but leaves
`Access-Control-Allow-Origin` unset. -/
theorem c3_origin_denial_null :
    (∀ (cfg : GoMap) (r : Request), (getHostAndMethods cfg r.origin).1 = false →
      headerGet (CorsHandler.serveHTTP cfg r).headers AccessControlAllowOrigin = some "null" ∧
      (CorsHandler.serveHTTP cfg r).status = some 403) ∧
    (∀ (cfg : Middleware) (r : Request), cfg.isOriginAllowed r.origin = false →
      headerGet (Handler.serveHTTP cfg r).headers allowOriginHeader = none ∧
      (Handler.serveHTTP cfg r).status = some 403) := by
  constructor
  · intro cfg r hh
    constructor <;>
      simp [CorsHandler.serveHTTP, hh, requestDenied, writeHeader, Response.initial,
        headerGet, headerSet]
  · intro cfg r ho
    have hvary : (varyHeader == allowOriginHeader) = false := by decide
    cases hb : r.method == optionsMethod with
    | true =>
      constructor <;>
        simp [Handler.serveHTTP, hb, Handler.handlePreflight, Handler.handleCommon, ho,
          Handler.requestDenied, Handler.prepResponse, writeHeader, Response.initial,
          headerGet, headerAdd, hvary]
    | false =>
      constructor <;>
        simp [Handler.serveHTTP, hb, Handler.handleRequest, Handler.handleCommon, ho,
          Handler.requestDenied, Handler.prepResponse, writeHeader, Response.initial,
          headerGet, headerAdd, hvary]

/-- C3 witness: evaluated on a concrete origin-denied request in each
variant. -/
theorem c3_origin_denial_null_witness :
    (headerGet (CorsHandler.serveHTTP [("http://a.com", some ["GET"])]
        (Request.mk "GET" "http://evil.com" "" "")).headers AccessControlAllowOrigin
      = some "null" ∧
      (CorsHandler.serveHTTP [("http://a.com", some ["GET"])]
        (Request.mk "GET" "http://evil.com" "" "")).status = some 403) ∧
    (headerGet (Handler.serveHTTP { allowedOrigins := [("http://a.com", (["GET"], ["*"]))] }
        (Request.mk "GET" "http://b.com" "" "")).headers allowOriginHeader = none ∧
      (Handler.serveHTTP { allowedOrigins := [("http://a.com", (["GET"], ["*"]))] }
        (Request.mk "GET" "http://b.com" "" "")).status = some 403) := by
  refine ⟨c3_origin_denial_null.1 [("http://a.com", some ["GET"])]
      (Request.mk "GET" "http://evil.com" "" "") (by decide),
    c3_origin_denial_null.2 { allowedOrigins := [("http://a.com", (["GET"], ["*"]))] }
      (Request.mk "GET" "http://b.com" "" "") (by decide)⟩

/-- The method that variant 2 probes against the policy: for OPTIONS requests
the preflight-request-method header value with fallback to the request's own
method, otherwise the request's own method. -/
def probedMethod (r : Request) : String :=
  if r.method == optionsMethod then
    (if r.acRequestMethod == "" then r.method else r.acRequestMethod)
  else r.method

/-- Variant 2's `ServeHTTP`, flattened: prep the response, run the common
check on the probed method, then invoke the continuation unconditionally. -/
theorem serveHTTP_eq (cfg : Middleware) (r : Request) :
    Handler.serveHTTP cfg r =
      { Handler.handleCommon cfg (Handler.prepResponse Response.initial) r (probedMethod r)
          with nextCalled := true } := by
  unfold Handler.serveHTTP probedMethod Handler.handlePreflight Handler.handleRequest
  cases hb : r.method == optionsMethod <;> simp [hb]

/-- When all three checks pass, `handleCommon` builds the response headers. -/
theorem handleCommon_allowed (cfg : Middleware) (w : Response) (r : Request)
    (method : String) (ho : cfg.isOriginAllowed r.origin = true)
    (hm : cfg.isMethodAllowed method r.origin = true)
    (hhd : cfg.areHeadersAllowed (splitComma r.acRequestHeaders) r.origin = true) :
    Handler.handleCommon cfg w r method
      = Handler.buildResponse w r.origin method (splitComma r.acRequestHeaders) := by
  simp [Handler.handleCommon, ho, hm, hhd]

/-- An option equal to the echoed origin is not the wildcard token unless the
origin itself is. -/
theorem echo_ne_wildcard (x : Option String) (o : String) (hx : x = some o)
    (hne : o ≠ "*") : x ≠ some "*" := by
  rw [hx]
  intro h
  exact hne (Option.some.inj h)

/-- C6: every allowed request, in either variant, gets
`Access-Control-Allow-Origin` set to the request's own `Origin` header value;
in particular the value is never the wildcard token unless the request itself
declared it.  For variant 1, "allowed" means forwarded or answered 200; for
variant 2, "allowed" means no denial status was written. -/
theorem c6_echo_origin :
    (∀ (cfg : GoMap) (r : Request),
      ((CorsHandler.serveHTTP cfg r).nextCalled = true ∨
        (CorsHandler.serveHTTP cfg r).status = some 200) →
      headerGet (CorsHandler.serveHTTP cfg r).headers AccessControlAllowOrigin
        = some r.origin ∧
      (r.origin ≠ "*" →
        headerGet (CorsHandler.serveHTTP cfg r).headers AccessControlAllowOrigin
          ≠ some "*")) ∧
    (∀ (cfg : Middleware) (r : Request),
      (Handler.serveHTTP cfg r).status = none →
      headerGet (Handler.serveHTTP cfg r).headers allowOriginHeader = some r.origin ∧
      (r.origin ≠ "*" →
        headerGet (Handler.serveHTTP cfg r).headers allowOriginHeader ≠ some "*")) := by
  have hOM : (AccessControlAllowOrigin == AccessControlAllowMethods) = false := by decide
  have hx1 : (varyHeader == allowOriginHeader) = false := by decide
  have hx2 : (allowOriginHeader == allowMethodsHeader) = false := by decide
  have hx3 : (allowOriginHeader == allowHeadersHeader) = false := by decide
  have hx4 : (varyHeader == allowMethodsHeader) = false := by decide
  have hx5 : (varyHeader == allowHeadersHeader) = false := by decide
  have hx6 : (allowMethodsHeader == allowHeadersHeader) = false := by decide
  constructor
  · intro cfg r hallow
    cases hh : (getHostAndMethods cfg r.origin).1 with
    | false =>
      simp [CorsHandler.serveHTTP, hh, requestDenied, writeHeader, Response.initial] at hallow
    | true =>
      cases hb : r.method == "OPTIONS" with
      | true =>
        by_cases hac : r.acRequestMethod = ""
        · have hfirst : headerGet (CorsHandler.serveHTTP cfg r).headers
              AccessControlAllowOrigin = some r.origin := by
            simp [CorsHandler.serveHTTP, hb, hh, hac, writeHeader, Response.initial,
              headerGet, headerSet, hOM]
          exact ⟨hfirst, fun hne => echo_ne_wildcard _ _ hfirst hne⟩
        · cases hcm : checkMethod r.acRequestMethod (getHostAndMethods cfg r.origin).2 with
          | false =>
            simp [CorsHandler.serveHTTP, hb, hh, hac, hcm, requestDenied, writeHeader,
              Response.initial] at hallow
          | true =>
            have hfirst : headerGet (CorsHandler.serveHTTP cfg r).headers
                AccessControlAllowOrigin = some r.origin := by
              simp [CorsHandler.serveHTTP, hb, hh, hac, hcm, writeHeader, Response.initial,
                headerGet, headerSet, hOM]
            exact ⟨hfirst, fun hne => echo_ne_wildcard _ _ hfirst hne⟩
      | false =>
        cases hcm : checkMethod r.method (getHostAndMethods cfg r.origin).2 with
        | false =>
          simp [CorsHandler.serveHTTP, hb, hh, hcm, requestDenied, writeHeader,
            Response.initial] at hallow
        | true =>
          have hfirst : headerGet (CorsHandler.serveHTTP cfg r).headers
              AccessControlAllowOrigin = some r.origin := by
            simp [CorsHandler.serveHTTP, hb, hh, hcm, writeHeader, Response.initial,
              headerGet, headerSet]
          exact ⟨hfirst, fun hne => echo_ne_wildcard _ _ hfirst hne⟩
  · intro cfg r hstat
    rw [serveHTTP_eq] at hstat ⊢
    simp only [] at hstat ⊢
    cases ho : cfg.isOriginAllowed r.origin with
    | false =>
      rw [handleCommon_denied cfg _ r (probedMethod r) rfl (Or.inl ho)] at hstat
      exact absurd hstat (by simp)
    | true =>
      cases hm : cfg.isMethodAllowed (probedMethod r) r.origin with
      | false =>
        rw [handleCommon_denied cfg _ r (probedMethod r) rfl (Or.inr (Or.inl hm))] at hstat
        exact absurd hstat (by simp)
      | true =>
        cases hhd : cfg.areHeadersAllowed (splitComma r.acRequestHeaders) r.origin with
        | false =>
          rw [handleCommon_denied cfg _ r (probedMethod r) rfl
            (Or.inr (Or.inr hhd))] at hstat
          exact absurd hstat (by simp)
        | true =>
          have hfirst : headerGet (Handler.handleCommon cfg
              (Handler.prepResponse Response.initial) r (probedMethod r)).headers
              allowOriginHeader = some r.origin := by
            rw [handleCommon_allowed cfg _ r (probedMethod r) ho hm hhd]
            simp [Handler.buildResponse, Handler.prepResponse, Response.initial,
              headerAdd, headerSet, headerGet, hx1, hx2, hx3, hx4, hx5, hx6]
          exact ⟨hfirst, fun hne => echo_ne_wildcard _ _ hfirst hne⟩

/-- C6 witness: a wildcard policy entry matches, yet the echoed value is the
literal requesting origin, in both variants. -/
theorem c6_echo_origin_witness :
    headerGet (CorsHandler.serveHTTP [("*", some ["GET"])]
        (Request.mk "GET" "http://anything.com" "" "")).headers AccessControlAllowOrigin
      = some "http://anything.com" ∧
    headerGet (Handler.serveHTTP { allowedOrigins := [("*", (["GET"], ["*"]))] }
        (Request.mk "GET" "http://anything.com" "" "")).headers allowOriginHeader
      = some "http://anything.com" := by
  refine ⟨(c6_echo_origin.1 [("*", some ["GET"])]
      (Request.mk "GET" "http://anything.com" "" "") (Or.inl (by decide))).1,
    (c6_echo_origin.2 { allowedOrigins := [("*", (["GET"], ["*"]))] }
      (Request.mk "GET" "http://anything.com" "" "") (by decide)).1⟩

/-- C7 counterexample: in the `CorsHandler` variant, a preflight without
`Access-Control-Request-Method` performs no method check at all: the request's
own method `OPTIONS` is not in the policy's method list, so a check on the
fallback method would deny, yet the handler answers 200. -/
theorem c7_fallback_counterexample :
    checkMethod (Request.mk "OPTIONS" "http://a.com" "" "").method
      (getHostAndMethods [("http://a.com", some ["GET"])]
        (Request.mk "OPTIONS" "http://a.com" "" "").origin).2 = false ∧
    (CorsHandler.serveHTTP [("http://a.com", some ["GET"])]
        (Request.mk "OPTIONS" "http://a.com" "" "")).status = some 200 := by
  refine ⟨by decide, by decide⟩

/-- C7 (amended): in the `Handler` variant the probed preflight method is the
`Access-Control-Request-Method` value when non-empty and the request's own
method otherwise; in the `CorsHandler` variant a preflight with an absent or
empty header performs no method check and succeeds whenever the origin check
passes.  Neither variant hard-fails on a missing header. -/
theorem c7_preflight_probe :
    (∀ (cfg : Middleware) (w : Response) (r : Request), r.acRequestMethod ≠ "" →
      Handler.handlePreflight cfg w r = Handler.handleCommon cfg w r r.acRequestMethod) ∧
    (∀ (cfg : Middleware) (w : Response) (r : Request), r.acRequestMethod = "" →
      Handler.handlePreflight cfg w r = Handler.handleCommon cfg w r r.method) ∧
    (∀ (cfg : GoMap) (r : Request), r.method = "OPTIONS" → r.acRequestMethod = "" →
      (getHostAndMethods cfg r.origin).1 = true →
      (CorsHandler.serveHTTP cfg r).status = some 200) := by
  refine ⟨?_, ?_, ?_⟩
  · intro cfg w r h
    simp [Handler.handlePreflight, h]
  · intro cfg w r h
    simp [Handler.handlePreflight, h]
  · intro cfg r hopt hac hh
    simp [CorsHandler.serveHTTP, hopt, hac, hh, writeHeader, Response.initial]

/-- C7 witness: the probe evaluated on a preflight carrying `POST`, a
preflight with the header absent, and a checkless `CorsHandler` preflight. -/
theorem c7_preflight_probe_witness :
    Handler.handlePreflight { allowedOrigins := [("http://a.com", (["GET"], ["*"]))] }
        Response.initial (Request.mk "OPTIONS" "http://a.com" "POST" "")
      = Handler.handleCommon { allowedOrigins := [("http://a.com", (["GET"], ["*"]))] }
        Response.initial (Request.mk "OPTIONS" "http://a.com" "POST" "") "POST" ∧
    Handler.handlePreflight { allowedOrigins := [("http://a.com", (["GET"], ["*"]))] }
        Response.initial (Request.mk "OPTIONS" "http://a.com" "" "")
      = Handler.handleCommon { allowedOrigins := [("http://a.com", (["GET"], ["*"]))] }
        Response.initial (Request.mk "OPTIONS" "http://a.com" "" "") "OPTIONS" ∧
    (CorsHandler.serveHTTP [("http://b.com", some ["GET"])]
        (Request.mk "OPTIONS" "http://b.com" "" "")).status = some 200 := by
  refine ⟨c7_preflight_probe.1 { allowedOrigins := [("http://a.com", (["GET"], ["*"]))] }
      Response.initial (Request.mk "OPTIONS" "http://a.com" "POST" "") (by decide),
    c7_preflight_probe.2.1 { allowedOrigins := [("http://a.com", (["GET"], ["*"]))] }
      Response.initial (Request.mk "OPTIONS" "http://a.com" "" "") rfl,
    c7_preflight_probe.2.2 [("http://b.com", some ["GET"])]
      (Request.mk "OPTIONS" "http://b.com" "" "") rfl rfl (by decide)⟩

/-- C9 counterexample: a request served by the `CorsHandler` variant gets no
`Vary` header at all — only variant 2's `prepResponse` adds one. -/
theorem c9_vary_counterexample :
    headerGet (CorsHandler.serveHTTP [("*", some ["GET"])]
        (Request.mk "GET" "http://a.com" "" "")).headers varyHeader = none := by
  decide

/-- C9 (amended): the `Handler` variant adds `Vary: Origin` to every response,
whatever the request and the decision; the `CorsHandler` variant never sets a
`Vary` header on any response. -/
theorem c9_vary_origin :
    (∀ (cfg : Middleware) (r : Request),
      headerGet (Handler.serveHTTP cfg r).headers varyHeader = some "Origin") ∧
    (∀ (cfg : GoMap) (r : Request),
      headerGet (CorsHandler.serveHTTP cfg r).headers varyHeader = none) := by
  have hx1 : (varyHeader == allowOriginHeader) = false := by decide
  have hx2 : (allowOriginHeader == allowMethodsHeader) = false := by decide
  have hx3 : (allowOriginHeader == allowHeadersHeader) = false := by decide
  have hx4 : (varyHeader == allowMethodsHeader) = false := by decide
  have hx5 : (varyHeader == allowHeadersHeader) = false := by decide
  have hx6 : (allowMethodsHeader == allowHeadersHeader) = false := by decide
  have hv1 : (AccessControlAllowOrigin == varyHeader) = false := by decide
  have hv2 : (AccessControlAllowMethods == varyHeader) = false := by decide
  constructor
  · intro cfg r
    rw [serveHTTP_eq]
    simp only []
    cases ho : cfg.isOriginAllowed r.origin with
    | false =>
      simp [Handler.handleCommon, ho, Handler.requestDenied, writeHeader,
        Handler.prepResponse, Response.initial, headerAdd, headerGet, originHeader]
    | true =>
      cases hm : cfg.isMethodAllowed (probedMethod r) r.origin with
      | false =>
        simp [Handler.handleCommon, ho, hm, Handler.requestDenied, writeHeader,
          Handler.prepResponse, Response.initial, headerAdd, headerGet, originHeader]
      | true =>
        cases hhd : cfg.areHeadersAllowed (splitComma r.acRequestHeaders) r.origin with
        | false =>
          simp [Handler.handleCommon, ho, hm, hhd, Handler.requestDenied, writeHeader,
            Handler.prepResponse, Response.initial, headerAdd, headerGet, originHeader]
        | true =>
          rw [handleCommon_allowed cfg _ r (probedMethod r) ho hm hhd]
          simp [Handler.buildResponse, Handler.prepResponse, Response.initial,
            headerAdd, headerSet, headerGet, originHeader, hx1, hx2, hx3, hx4, hx5, hx6]
  · intro cfg r
    cases hh : (getHostAndMethods cfg r.origin).1 with
    | false =>
      simp [CorsHandler.serveHTTP, hh, requestDenied, writeHeader, Response.initial,
        headerGet, headerSet, hv1]
    | true =>
      cases hb : r.method == "OPTIONS" with
      | true =>
        by_cases hac : r.acRequestMethod = ""
        · simp [CorsHandler.serveHTTP, hb, hh, hac, writeHeader, Response.initial,
            headerGet, headerSet, hv1, hv2]
          all_goals decide
        · cases hcm : checkMethod r.acRequestMethod (getHostAndMethods cfg r.origin).2 with
          | false =>
            simp [CorsHandler.serveHTTP, hb, hh, hac, hcm, requestDenied, writeHeader,
              Response.initial, headerGet, headerSet, hv1, hv2]
            all_goals decide
          | true =>
            simp [CorsHandler.serveHTTP, hb, hh, hac, hcm, writeHeader, Response.initial,
              headerGet, headerSet, hv1, hv2]
            all_goals decide
      | false =>
        cases hcm : checkMethod r.method (getHostAndMethods cfg r.origin).2 with
        | false =>
          simp [CorsHandler.serveHTTP, hb, hh, hcm, requestDenied, writeHeader,
            Response.initial, headerGet, headerSet, hv1]
        | true =>
          simp [CorsHandler.serveHTTP, hb, hh, hcm, writeHeader, Response.initial,
            headerGet, headerSet, hv1]

/-- Looking up a header name right after setting it yields the set value. -/
theorem headerGet_headerSet_self (hs : Headers) (k v : String) :
    headerGet (headerSet hs k v) k = some v := by
  unfold headerGet headerSet
  induction hs with
  | nil => simp [List.find?]
  | cons p t ih =>
    by_cases hp : (p.1 == k) = true
    · simp [List.filter_cons, hp]
    · simp only [List.filter_cons]
      rw [if_pos (by simp [hp])]
      simp [List.find?, Bool.eq_false_iff.mpr hp]

/-- C10: in the header-checking variant, a request without
`Access-Control-Request-Headers` yields the one-element requested-header list
`[""]` (never `[]`), so — origin and method checks passing — the request is
denied with 403 unless the origin's allowed-header set admits the empty string
(directly or via the wildcard token), in which case the echoed
`Access-Control-Allow-Headers` value is the empty string. -/
theorem c10_empty_header_list (cfg : Middleware) (r : Request) (m : String)
    (w : Response) (hacrh : r.acRequestHeaders = "")
    (ho : cfg.isOriginAllowed r.origin = true)
    (hm : cfg.isMethodAllowed m r.origin = true)
    (hw : w.status = none) :
    splitComma r.acRequestHeaders = [""] ∧
    (((cfg.allowedHeaders r.origin).contains "*" = false ∧
      (cfg.allowedHeaders r.origin).contains "" = false) →
      (Handler.handleCommon cfg w r m).status = some 403) ∧
    (((cfg.allowedHeaders r.origin).contains "*" = true ∨
      (cfg.allowedHeaders r.origin).contains "" = true) →
      (Handler.handleCommon cfg w r m).status = w.status ∧
      headerGet (Handler.handleCommon cfg w r m).headers allowHeadersHeader = some "") := by
  have hsplit : splitComma r.acRequestHeaders = [""] := by
    rw [hacrh]
    rfl
  refine ⟨hsplit, ?_, ?_⟩
  · rintro ⟨h1, h2⟩
    have hfail : cfg.areHeadersAllowed (splitComma r.acRequestHeaders) r.origin = false := by
      rw [hsplit]
      simp only [Middleware.areHeadersAllowed, List.all_cons, List.all_nil, Bool.and_true,
        h1, h2, Bool.or_false]
    exact handleCommon_denied cfg w r m hw (Or.inr (Or.inr hfail))
  · intro hadmit
    have hok : cfg.areHeadersAllowed (splitComma r.acRequestHeaders) r.origin = true := by
      rw [hsplit]
      rcases hadmit with h1 | h1
      · simp only [Middleware.areHeadersAllowed, h1, Bool.true_or]
      · simp only [Middleware.areHeadersAllowed, List.all_cons, List.all_nil, Bool.and_true,
          h1, Bool.or_true]
    rw [handleCommon_allowed cfg w r m ho hm hok]
    rw [hsplit]
    constructor
    · simp [Handler.buildResponse]
    · exact headerGet_headerSet_self _ _ _

/-- C10 witness: a request with the header absent, against an origin whose
allowed-header set is the wildcard. -/
theorem c10_empty_header_list_witness :
    splitComma (Request.mk "GET" "http://a.com" "" "").acRequestHeaders = [""] ∧
    (Handler.handleCommon { allowedOrigins := [("http://a.com", (["GET"], ["*"]))] }
        Response.initial (Request.mk "GET" "http://a.com" "" "") "GET").status = none ∧
    headerGet (Handler.handleCommon { allowedOrigins := [("http://a.com", (["GET"], ["*"]))] }
        Response.initial (Request.mk "GET" "http://a.com" "" "") "GET").headers
      allowHeadersHeader = some "" := by
  have h := c10_empty_header_list { allowedOrigins := [("http://a.com", (["GET"], ["*"]))] }
    (Request.mk "GET" "http://a.com" "" "") "GET" Response.initial rfl (by decide)
    (by decide) rfl
  exact ⟨h.1, (h.2.2 (Or.inl (by decide))).1, (h.2.2 (Or.inl (by decide))).2⟩
